import Mathlib

/-!
Verification of the atdtool log-archival daemon against its specification.

The Go sources are shallowly embedded as Lean functions:

* `internal/pkg/logarchive/modules/filearchive/filearchive.go` — the
  per-file state machine (`handleOutputNotify`, `handleDeleteNotify`,
  `tickCheckFile`) and the derived retry loops (`uploadRun`, `deleteRun`).
* `internal/pkg/logarchive/modules/cos/cos.go` — destination-key
  computation (`cosDestKey`, `getArchivePrefix`) and the compression
  phase of `Execute`.
* `pkg/compress` — the chunked zstd staging loop (`zstdLoop`).
* the `logarchive` package — `run`/`Stop` startup and shutdown
  (`startArchives`, `runModel`, `stopModel`) and `LoadModuleByID`.
* `filearchive/cache.go` — the `sync.Pool` handling of
  `releaseCacheKey` / `newNotifyInfo`.

Machine integers are modelled as `Int`/`Nat` (no overflow is relevant at
the involved magnitudes), Go errors as `Option String`/`Except String`,
and nil-pointer dereference as an `Except` error. Filesystem paths are
modelled in cleaned form: an absolute-flag plus the list of path
components.
-/

namespace Atdtool

/-! ## File archive data model (filearchive.go) -/

/-- Go `fileStatus` enumeration from filearchive.go. -/
inductive FileStatus
  | unKnown
  | waitUpload
  | uploading
  | uploaded
  deriving DecidableEq

/-- Go `fileInfo` struct: per-file state owned by the event loop. -/
structure FileInfo where
  uploadFailedCount : Nat
  deleteFailedCount : Nat
  protectedEndTime : Int
  status : FileStatus
  deriving DecidableEq

/-- A freshly tracked file, as inserted by `handleWatcherEvent` and
`addWatchPath`: zero-valued counters, status `WaitUpload`, protected end
time `mtime + modifyProtectTime`. -/
def initFileInfo (pet : Int) : FileInfo :=
  { uploadFailedCount := 0
    deleteFailedCount := 0
    protectedEndTime := pet
    status := FileStatus.waitUpload }

/-- Effects of the `notifyTypeOutputTask` branch of
`Archive.handleTaskNotify` on one cached file. `retry` means the entry
was rolled back to `WaitUpload` for the next tick; `discardInc` is the
number of `InputDiscardTotal` increments; `enqueueDelete` means a key
was pushed onto `deleteChan`; `removedFromCache` means the entry was
dropped from the cache immediately (the `KeepSourceFile` branch). -/
structure OutputNotifyRes where
  v : FileInfo
  retry : Bool
  discardInc : Nat
  enqueueDelete : Bool
  removedFromCache : Bool
  deriving DecidableEq

/-- Embedding of the `notifyTypeOutputTask` case of
`Archive.handleTaskNotify` (filearchive.go lines 405-435). `keep` is
`CollectRule.KeepSourceFile`, `protect` is
`CollectRule.ModifyProtectTime`, `now` is `time.Now().Unix()` at the
moment the notification is handled, `result` is the reported upload
outcome. -/
def handleOutputNotify (keep : Bool) (protect now : Int) (v : FileInfo)
    (result : Bool) : OutputNotifyRes :=
  if result = false then
    let v1 : FileInfo := { v with uploadFailedCount := v.uploadFailedCount + 1 }
    if v1.uploadFailedCount < 3 then
      { v := { v1 with status := FileStatus.waitUpload, protectedEndTime := now + protect }
        retry := true
        discardInc := 0
        enqueueDelete := false
        removedFromCache := false }
    else
      { v := v1
        retry := false
        discardInc := 1
        enqueueDelete := !keep
        removedFromCache := keep }
  else
    { v := { v with status := FileStatus.uploaded }
      retry := false
      discardInc := 0
      enqueueDelete := !keep
      removedFromCache := keep }

/-- Effects of the `notifyTypeDeleteTask` branch of
`Archive.handleTaskNotify`: `reenqueue` means another key was pushed
onto `deleteChan` for a further `os.Remove` attempt. -/
structure DeleteNotifyRes where
  v : FileInfo
  reenqueue : Bool
  removedFromCache : Bool
  deriving DecidableEq

/-- Embedding of the `notifyTypeDeleteTask` case of
`Archive.handleTaskNotify` (filearchive.go lines 436-453). -/
def handleDeleteNotify (v : FileInfo) (result : Bool) : DeleteNotifyRes :=
  if result = false then
    let v1 : FileInfo := { v with deleteFailedCount := v.deleteFailedCount + 1 }
    if v1.deleteFailedCount < 3 then
      { v := v1, reenqueue := true, removedFromCache := false }
    else
      { v := v1, reenqueue := false, removedFromCache := true }
  else
    { v := v, reenqueue := false, removedFromCache := true }

/-- Result of the per-file portion of one ticker iteration: the updated
cache entry (`none` when the file vanished and was dropped) and whether
a closure invoking `output.Execute` was submitted to the worker queue. -/
structure TickRes where
  v : Option FileInfo
  submitted : Bool
  deriving DecidableEq

/-- Embedding of the per-file body of the ticker branch of
`Archive.run` (filearchive.go lines 252-296). `statMtime` is the result
of `os.Stat` on the file (`none` if it vanished); `queueFull` models
`trySubmitTask` returning false. -/
def tickCheckFile (protect now : Int) (v : FileInfo)
    (statMtime : Option Int) (queueFull : Bool) : TickRes :=
  if v.status ≠ FileStatus.waitUpload ∨ v.protectedEndTime > now then
    { v := some v, submitted := false }
  else
    match statMtime with
    | none => { v := none, submitted := false }
    | some mtime =>
      let pet := mtime + protect
      if pet > now then
        { v := some { v with protectedEndTime := pet }, submitted := false }
      else
        let v1 : FileInfo := { v with status := FileStatus.uploading }
        if queueFull then
          { v := some { v1 with status := FileStatus.waitUpload }, submitted := false }
        else
          { v := some v1, submitted := true }

/-! ## The upload retry loop derived from the event loop

A file that has been submitted once keeps being resubmitted by the tick
handler as long as `handleOutputNotify` rolls it back to `WaitUpload`.
`uploadRun` composes these steps: attempt `i` calls `output.Execute`,
whose outcome is `f i`; the notification is then handled by
`handleOutputNotify`, and on `retry` the next tick resubmits. -/

/-- Terminal classification of a tracked file. -/
inductive Terminal
  | uploaded
  | discarded
  deriving DecidableEq

/-- Accumulated observable effects of the whole upload phase of one
file: total number of `output.Execute` calls, terminal outcome, number
of `InputDiscardTotal` increments, whether a delete key was enqueued,
whether the entry was removed from the cache without deletion, and the
final cache entry value. -/
structure RunRes where
  executeCalls : Nat
  terminal : Terminal
  discardIncs : Nat
  enqueueDelete : Bool
  removedKeep : Bool
  vFinal : FileInfo
  deriving DecidableEq

theorem handleOutputNotify_retry_iff (keep : Bool) (protect now : Int)
    (v : FileInfo) (result : Bool) :
    (handleOutputNotify keep protect now v result).retry = true ↔
      result = false ∧ v.uploadFailedCount + 1 < 3 := by
  unfold handleOutputNotify
  cases result
  · by_cases hc : v.uploadFailedCount + 1 < 3 <;> simp [hc]
  · simp

theorem handleOutputNotify_retry_count (keep : Bool) (protect now : Int)
    (v : FileInfo) (result : Bool)
    (h : (handleOutputNotify keep protect now v result).retry = true) :
    (handleOutputNotify keep protect now v result).v.uploadFailedCount =
      v.uploadFailedCount + 1 := by
  rcases (handleOutputNotify_retry_iff keep protect now v result).mp h with ⟨h1, h2⟩
  subst h1
  unfold handleOutputNotify
  simp [h2]

/-- The upload phase of one tracked file, starting at attempt index `i`
with cache entry `v`. `now j` is the wall clock when the `j`-th
notification is handled and `f j` is the outcome of the `j`-th
`output.Execute` call. Each recursive step is one further tick-handler
resubmission after a `WaitUpload` rollback. -/
def uploadRun (keep : Bool) (protect : Int) (now : Nat → Int)
    (f : Nat → Bool) (i : Nat) (v : FileInfo) : RunRes :=
  let r := handleOutputNotify keep protect (now i) v (f i)
  if h : r.retry = true then
    let rest := uploadRun keep protect now f (i + 1) r.v
    { rest with executeCalls := rest.executeCalls + 1 }
  else
    { executeCalls := 1
      terminal := if f i then Terminal.uploaded else Terminal.discarded
      discardIncs := r.discardInc
      enqueueDelete := r.enqueueDelete
      removedKeep := r.removedFromCache
      vFinal := r.v }
  termination_by 3 - v.uploadFailedCount
  decreasing_by
    have h1 := (handleOutputNotify_retry_iff keep protect (now i) v (f i)).mp h
    have h2 := handleOutputNotify_retry_count keep protect (now i) v (f i) h
    omega

theorem handleOutputNotify_true (keep : Bool) (protect now : Int) (v : FileInfo) :
    handleOutputNotify keep protect now v true =
      { v := { v with status := FileStatus.uploaded }
        retry := false
        discardInc := 0
        enqueueDelete := !keep
        removedFromCache := keep } := by
  unfold handleOutputNotify
  simp

theorem handleOutputNotify_false_retry (keep : Bool) (protect now : Int) (v : FileInfo)
    (hc : v.uploadFailedCount + 1 < 3) :
    handleOutputNotify keep protect now v false =
      { v := { v with uploadFailedCount := v.uploadFailedCount + 1, status := FileStatus.waitUpload, protectedEndTime := now + protect }
        retry := true
        discardInc := 0
        enqueueDelete := false
        removedFromCache := false } := by
  unfold handleOutputNotify
  simp [hc]

theorem handleOutputNotify_false_term (keep : Bool) (protect now : Int) (v : FileInfo)
    (hc : ¬ v.uploadFailedCount + 1 < 3) :
    handleOutputNotify keep protect now v false =
      { v := { v with uploadFailedCount := v.uploadFailedCount + 1 }
        retry := false
        discardInc := 1
        enqueueDelete := !keep
        removedFromCache := keep } := by
  unfold handleOutputNotify
  simp [hc]

theorem uploadRun_step_uploaded (keep : Bool) (protect : Int) (now : Nat → Int)
    (f : Nat → Bool) (i : Nat) (v : FileInfo) (h : f i = true) :
    uploadRun keep protect now f i v =
      { executeCalls := 1
        terminal := Terminal.uploaded
        discardIncs := 0
        enqueueDelete := !keep
        removedKeep := keep
        vFinal := { v with status := FileStatus.uploaded } } := by
  unfold uploadRun
  simp [h, handleOutputNotify_true]

theorem uploadRun_step_discarded (keep : Bool) (protect : Int) (now : Nat → Int)
    (f : Nat → Bool) (i : Nat) (v : FileInfo) (h : f i = false)
    (hc : ¬ v.uploadFailedCount + 1 < 3) :
    uploadRun keep protect now f i v =
      { executeCalls := 1
        terminal := Terminal.discarded
        discardIncs := 1
        enqueueDelete := !keep
        removedKeep := keep
        vFinal := { v with uploadFailedCount := v.uploadFailedCount + 1 } } := by
  unfold uploadRun
  simp [h, handleOutputNotify_false_term keep protect (now i) v hc]

theorem uploadRun_step_retry (keep : Bool) (protect : Int) (now : Nat → Int)
    (f : Nat → Bool) (i : Nat) (v : FileInfo) (h : f i = false)
    (hc : v.uploadFailedCount + 1 < 3) :
    uploadRun keep protect now f i v =
      (let rest := uploadRun keep protect now f (i + 1)
        { v with uploadFailedCount := v.uploadFailedCount + 1, status := FileStatus.waitUpload, protectedEndTime := now i + protect }
       { rest with executeCalls := rest.executeCalls + 1 }) := by
  conv_lhs => unfold uploadRun
  simp [h, handleOutputNotify_false_retry keep protect (now i) v hc]

theorem handleOutputNotify_cleanup (keep : Bool) (protect now : Int)
    (v : FileInfo) (result : Bool)
    (h : (handleOutputNotify keep protect now v result).retry = false) :
    (handleOutputNotify keep protect now v result).enqueueDelete = !keep ∧
      (handleOutputNotify keep protect now v result).removedFromCache = keep := by
  unfold handleOutputNotify at *
  cases result
  · by_cases hc : v.uploadFailedCount + 1 < 3
    · simp [hc] at h
    · simp [hc]
  · simp

/-- Every upload phase ends in the cleanup branch of `handleTaskNotify`:
a delete key is enqueued exactly when `KeepSourceFile` is false, and the
entry leaves the cache without deletion exactly when it is true. -/
theorem uploadRun_cleanup (keep : Bool) (protect : Int) (now : Nat → Int)
    (f : Nat → Bool) (i : Nat) (v : FileInfo) :
    (uploadRun keep protect now f i v).enqueueDelete = !keep ∧
      (uploadRun keep protect now f i v).removedKeep = keep := by
  suffices h : ∀ m (i : Nat) (v : FileInfo), 3 - v.uploadFailedCount ≤ m →
      (uploadRun keep protect now f i v).enqueueDelete = !keep ∧
        (uploadRun keep protect now f i v).removedKeep = keep by
    exact h (3 - v.uploadFailedCount) i v le_rfl
  intro m
  induction m with
  | zero =>
    intro i v hm
    have hr : (handleOutputNotify keep protect (now i) v (f i)).retry = false := by
      rcases hh : (handleOutputNotify keep protect (now i) v (f i)).retry with _ | _
      · rfl
      · rcases (handleOutputNotify_retry_iff keep protect (now i) v (f i)).mp hh with ⟨_, h2⟩
        omega
    unfold uploadRun
    rw [dif_neg (by simp [hr])]
    exact handleOutputNotify_cleanup keep protect (now i) v (f i) hr
  | succ m ih =>
    intro i v hm
    unfold uploadRun
    by_cases hr : (handleOutputNotify keep protect (now i) v (f i)).retry = true
    · rw [dif_pos hr]
      have h1 := (handleOutputNotify_retry_iff keep protect (now i) v (f i)).mp hr
      have h2 := handleOutputNotify_retry_count keep protect (now i) v (f i) hr
      have := ih (i + 1) (handleOutputNotify keep protect (now i) v (f i)).v (by omega)
      simpa using this
    · rw [dif_neg hr]
      exact handleOutputNotify_cleanup keep protect (now i) v (f i) (by simpa using hr)

/-! ## Claim C1: number of upload attempts -/

/-- C1 (counterexample). With upload outcomes fail, fail, succeed, the
archive calls `output.Execute` exactly 3 times but the file ends
`Uploaded` — the third attempt succeeded, so it is not the case that the
attempt count is 3 only if every attempt fails. -/
theorem uploadRun_three_calls_not_all_failed :
    (uploadRun false 60 (fun _ => 1000) (fun i => i == 2) 0 (initFileInfo 0)).executeCalls = 3 ∧
    (uploadRun false 60 (fun _ => 1000) (fun i => i == 2) 0 (initFileInfo 0)).terminal =
      Terminal.uploaded ∧
    ¬ (∀ j < 3, (fun i : Nat => i == 2) j = false) := by
  have h1 := uploadRun_step_retry false 60 (fun _ => 1000) (fun i => i == 2) 0
    (initFileInfo 0) (by decide) (by decide)
  rw [h1]
  have h2 := uploadRun_step_retry false 60 (fun _ => 1000) (fun i => i == 2) 1
    { initFileInfo 0 with uploadFailedCount := (initFileInfo 0).uploadFailedCount + 1, status := FileStatus.waitUpload, protectedEndTime := 1000 + 60 }
    (by decide) (by decide)
  rw [h2]
  have h3 := uploadRun_step_uploaded false 60 (fun _ => 1000) (fun i => i == 2) 2
    { initFileInfo 0 with uploadFailedCount := (initFileInfo 0).uploadFailedCount + 1 + 1, status := FileStatus.waitUpload, protectedEndTime := 1000 + 60 }
    (by decide)
  rw [h3]
  refine ⟨rfl, rfl, ?_⟩
  intro h
  exact absurd (h 2 (by omega)) (by decide)

/-- C1 (amended). For a tracked file the number of `output.Execute`
calls is between 1 and 3; it is exactly 3 iff the first two attempts
fail (the third may succeed or fail); the file is discarded iff all
three attempts fail, in which case `InputDiscardTotal` is incremented
exactly once and the file proceeds to the cleanup branch (delete key
enqueued when `KeepSourceFile` is false, cache entry dropped when it is
true) instead of being retried again. -/
theorem uploadRun_attempt_policy (keep : Bool) (protect : Int) (now : Nat → Int)
    (f : Nat → Bool) (pet : Int) :
    (1 ≤ (uploadRun keep protect now f 0 (initFileInfo pet)).executeCalls ∧
      (uploadRun keep protect now f 0 (initFileInfo pet)).executeCalls ≤ 3) ∧
    ((uploadRun keep protect now f 0 (initFileInfo pet)).executeCalls = 3 ↔
      f 0 = false ∧ f 1 = false) ∧
    ((uploadRun keep protect now f 0 (initFileInfo pet)).terminal = Terminal.discarded ↔
      f 0 = false ∧ f 1 = false ∧ f 2 = false) ∧
    ((uploadRun keep protect now f 0 (initFileInfo pet)).terminal = Terminal.discarded →
      (uploadRun keep protect now f 0 (initFileInfo pet)).discardIncs = 1 ∧
      (uploadRun keep protect now f 0 (initFileInfo pet)).enqueueDelete = !keep ∧
      (uploadRun keep protect now f 0 (initFileInfo pet)).removedKeep = keep) ∧
    ((uploadRun keep protect now f 0 (initFileInfo pet)).terminal = Terminal.uploaded →
      (uploadRun keep protect now f 0 (initFileInfo pet)).discardIncs = 0) := by
  rcases h0 : f 0 with _ | _
  · rcases h1 : f 1 with _ | _
    · rcases h2 : f 2 with _ | _
      · rw [uploadRun_step_retry keep protect now f 0 (initFileInfo pet) h0
          (by simp [initFileInfo])]
        rw [uploadRun_step_retry keep protect now f 1
          { initFileInfo pet with uploadFailedCount := (initFileInfo pet).uploadFailedCount + 1, status := FileStatus.waitUpload, protectedEndTime := now 0 + protect }
          h1 (by simp [initFileInfo])]
        rw [uploadRun_step_discarded keep protect now f 2
          { initFileInfo pet with uploadFailedCount := (initFileInfo pet).uploadFailedCount + 1 + 1, status := FileStatus.waitUpload, protectedEndTime := now 1 + protect }
          h2 (by simp [initFileInfo])]
        simp [h0, h1, h2]
      · rw [uploadRun_step_retry keep protect now f 0 (initFileInfo pet) h0
          (by simp [initFileInfo])]
        rw [uploadRun_step_retry keep protect now f 1
          { initFileInfo pet with uploadFailedCount := (initFileInfo pet).uploadFailedCount + 1, status := FileStatus.waitUpload, protectedEndTime := now 0 + protect }
          h1 (by simp [initFileInfo])]
        rw [uploadRun_step_uploaded keep protect now f 2
          { initFileInfo pet with uploadFailedCount := (initFileInfo pet).uploadFailedCount + 1 + 1, status := FileStatus.waitUpload, protectedEndTime := now 1 + protect }
          h2]
        simp [h0, h1, h2]
    · rw [uploadRun_step_retry keep protect now f 0 (initFileInfo pet) h0
        (by simp [initFileInfo])]
      rw [uploadRun_step_uploaded keep protect now f 1
        { initFileInfo pet with uploadFailedCount := (initFileInfo pet).uploadFailedCount + 1, status := FileStatus.waitUpload, protectedEndTime := now 0 + protect }
        h1]
      simp [h0, h1]
  · rw [uploadRun_step_uploaded keep protect now f 0 (initFileInfo pet) h0]
    simp [h0]

/-- Witness for `uploadRun_attempt_policy`: with all three attempts
failing, the file is discarded with exactly one discard-counter
increment and a delete key enqueued. -/
theorem uploadRun_attempt_policy_witness :
    (uploadRun false 60 (fun _ => 1000) (fun _ => false) 0 (initFileInfo 0)).terminal =
      Terminal.discarded ∧
    (uploadRun false 60 (fun _ => 1000) (fun _ => false) 0 (initFileInfo 0)).discardIncs = 1 ∧
    (uploadRun false 60 (fun _ => 1000) (fun _ => false) 0 (initFileInfo 0)).enqueueDelete = true := by
  have h := uploadRun_attempt_policy false 60 (fun _ => 1000) (fun _ => false) 0
  have hd : (uploadRun false 60 (fun _ => 1000) (fun _ => false) 0 (initFileInfo 0)).terminal =
      Terminal.discarded := h.2.2.1.mpr ⟨rfl, rfl, rfl⟩
  rcases h.2.2.2.1 hd with ⟨ha, hb, _⟩
  exact ⟨hd, ha, hb⟩

/-! ## Claim C2: disk deletion policy -/

theorem handleDeleteNotify_reenqueue_iff (v : FileInfo) (result : Bool) :
    (handleDeleteNotify v result).reenqueue = true ↔
      result = false ∧ v.deleteFailedCount + 1 < 3 := by
  unfold handleDeleteNotify
  cases result
  · by_cases hc : v.deleteFailedCount + 1 < 3 <;> simp [hc]
  · simp

theorem handleDeleteNotify_reenqueue_count (v : FileInfo) (result : Bool)
    (h : (handleDeleteNotify v result).reenqueue = true) :
    (handleDeleteNotify v result).v.deleteFailedCount = v.deleteFailedCount + 1 := by
  rcases (handleDeleteNotify_reenqueue_iff v result).mp h with ⟨h1, h2⟩
  subst h1
  unfold handleDeleteNotify
  simp [h2]

/-- Number of `os.Remove` calls issued by `runDeleteFileTask` for one
cache key enqueued on `deleteChan`, with `g j` the outcome of the `j`-th
removal attempt: the worker removes, sends a `DeleteResult`
notification, and `handleTaskNotify` re-enqueues the key while
`deleteFailedCount` stays below 3 (filearchive.go lines 322-350 and
436-453). -/
def deleteRun (g : Nat → Bool) (j : Nat) (v : FileInfo) : Nat :=
  if h : (handleDeleteNotify v (g j)).reenqueue = true then
    deleteRun g (j + 1) (handleDeleteNotify v (g j)).v + 1
  else
    1
  termination_by 3 - v.deleteFailedCount
  decreasing_by
    have h1 := (handleDeleteNotify_reenqueue_iff v (g j)).mp h
    have h2 := handleDeleteNotify_reenqueue_count v (g j) h
    omega

theorem deleteRun_pos (g : Nat → Bool) (j : Nat) (v : FileInfo) :
    1 ≤ deleteRun g j v := by
  unfold deleteRun
  split <;> omega

/-- Total number of `os.Remove(F)` calls issued for one tracked file
over its whole lifecycle: the upload phase runs to its terminal state,
and deletion happens only through the `deleteChan` enqueued by the
cleanup branch of `handleTaskNotify`. -/
def removeCallCount (keep : Bool) (protect : Int) (now : Nat → Int)
    (f g : Nat → Bool) (pet : Int) : Nat :=
  let u := uploadRun keep protect now f 0 (initFileInfo pet)
  if u.enqueueDelete then deleteRun g 0 u.vFinal else 0

/-- C2. `os.Remove(F)` is called (at least once) iff `KeepSourceFile`
is false and the file reached a terminal state — `Uploaded` or retry
exhaustion; when `KeepSourceFile` is true the entry is removed from the
cache with no disk deletion. -/
theorem removeCall_iff_terminal (keep : Bool) (protect : Int) (now : Nat → Int)
    (f g : Nat → Bool) (pet : Int) :
    (1 ≤ removeCallCount keep protect now f g pet ↔
      keep = false ∧
        ((uploadRun keep protect now f 0 (initFileInfo pet)).terminal = Terminal.uploaded ∨
         (uploadRun keep protect now f 0 (initFileInfo pet)).terminal = Terminal.discarded)) ∧
    (keep = true → removeCallCount keep protect now f g pet = 0 ∧
      (uploadRun keep protect now f 0 (initFileInfo pet)).removedKeep = true) := by
  have hc := uploadRun_cleanup keep protect now f 0 (initFileInfo pet)
  have hterm : (uploadRun keep protect now f 0 (initFileInfo pet)).terminal = Terminal.uploaded ∨
      (uploadRun keep protect now f 0 (initFileInfo pet)).terminal = Terminal.discarded := by
    rcases (uploadRun keep protect now f 0 (initFileInfo pet)).terminal with _ | _
    · exact Or.inl rfl
    · exact Or.inr rfl
  unfold removeCallCount
  cases keep
  · simp only [Bool.not_false] at hc
    rw [if_pos hc.1]
    constructor
    · simp [deleteRun_pos, hterm]
    · intro h
      exact absurd h (by simp)
  · simp only [Bool.not_true] at hc
    rw [if_neg (by simp [hc.1])]
    constructor
    · simp
    · intro _
      exact ⟨rfl, hc.2⟩

/-- Witness for `removeCall_iff_terminal`: with `KeepSourceFile = true`
no `os.Remove` call is issued and the entry is dropped from the cache. -/
theorem removeCall_iff_terminal_witness :
    removeCallCount true 60 (fun _ => 1000) (fun _ => true) (fun _ => true) 0 = 0 ∧
    (uploadRun true 60 (fun _ => 1000) (fun _ => true) 0 (initFileInfo 0)).removedKeep = true :=
  (removeCall_iff_terminal true 60 (fun _ => 1000) (fun _ => true) (fun _ => true) 0).2 rfl

/-! ## Claim C3: modification-quiescence window -/

/-- C3. The tick handler never submits a file before `mtime +
modifyProtectTime`: a submission at wall-clock `now` implies
`mtime + protect ≤ now` for the `mtime` observed by the re-stat at that
tick; and when the file was re-modified during the wait (`mtime +
protect > now` while the cached window has expired), the handler pushes
`protectedEndTime` forward to `mtime + protect` without submitting. -/
theorem tick_quiescence (protect now mtime : Int) (v : FileInfo) (q : Bool) :
    ((tickCheckFile protect now v (some mtime) q).submitted = true →
      mtime + protect ≤ now) ∧
    (v.status = FileStatus.waitUpload → v.protectedEndTime ≤ now →
      now < mtime + protect →
      tickCheckFile protect now v (some mtime) q =
        { v := some { v with protectedEndTime := mtime + protect }, submitted := false }) := by
  constructor
  · intro hs
    unfold tickCheckFile at hs
    by_cases h1 : v.status ≠ FileStatus.waitUpload ∨ v.protectedEndTime > now
    · rw [if_pos h1] at hs
      simp at hs
    · rw [if_neg h1] at hs
      simp only at hs
      by_cases h2 : mtime + protect > now
      · rw [if_pos h2] at hs
        simp at hs
      · omega
  · intro h1 h2 h3
    unfold tickCheckFile
    rw [if_neg (by simp [h1]; omega)]
    simp only
    rw [if_pos (by omega)]

/-- Witness for `tick_quiescence`: a file whose cached window has
expired but whose fresh mtime is recent gets its window restarted. -/
theorem tick_quiescence_witness :
    tickCheckFile 60 100 (initFileInfo 0) (some 90) false =
      { v := some { initFileInfo 0 with protectedEndTime := 90 + 60 }, submitted := false } :=
  (tick_quiescence 60 100 90 (initFileInfo 0) false).2 rfl (by norm_num [initFileInfo])
    (by norm_num)

/-! ## Paths and Go time formatting (cos.go)

Cleaned Unix paths are modelled as an absolute-flag plus the list of
path components. `goRel` is `path/filepath.Rel` restricted to cleaned
Unix paths: it errors iff the two paths differ in absoluteness or the
base has a `..` component at the divergence point; otherwise the result
is `..` segments for the remaining base components followed by the
remaining target components (the empty list standing for `.`). -/

/-- Cleaned Unix path: absolute flag and path components. -/
structure GoPath where
  abs : Bool
  comps : List String
  deriving DecidableEq

/-- Strip the longest common component prefix of two paths (the first
loop of `filepath.Rel`). -/
def stripCommon : List String → List String → List String × List String
  | a :: as, b :: bs => if a = b then stripCommon as bs else (a :: as, b :: bs)
  | as, bs => (as, bs)

/-- Embedding of `path/filepath.Rel` on cleaned Unix paths, as invoked
by `Handler.Execute` (cos.go line 147). -/
def goRel (base targ : GoPath) : Except String (List String) :=
  if base.abs ≠ targ.abs then
    Except.error "Rel: cannot make relative"
  else
    let p := stripCommon base.comps targ.comps
    if p.1.head? = some ".." then
      Except.error "Rel: cannot make relative"
    else
      Except.ok (List.replicate p.1.length ".." ++ p.2)

/-- Render a relative component list the way Go renders the `Rel`
result: `.` when empty, otherwise components joined by `/`. -/
def renderRel : List String → String
  | [] => "."
  | [c] => c
  | c :: rest => c ++ "/" ++ renderRel rest

/-- One step of `path.Clean` on a relative component list: skip `.` and
empty components, resolve `..` against the (reversed) stack. -/
def cleanStack (acc : List String) (c : String) : List String :=
  if c = "." ∨ c = "" then acc
  else if c = ".." then
    match acc with
    | [] => [".."]
    | top :: rest => if top = ".." then c :: acc else rest
  else c :: acc

/-- `path/filepath.Clean` on a relative component list; `filepath.Join`
of components is `cleanRel` of their concatenation. -/
def cleanRel (comps : List String) : List String :=
  (comps.foldl cleanStack []).reverse

/-- Single decimal digit as a one-character string. -/
def digitStr (n : Nat) : String :=
  String.singleton (Char.ofNat (48 + n))

/-- Decimal rendering of a natural number, fuelled so that it reduces
definitionally; the fuel is an upper bound on the number of digits and
the initial call passes the number itself. -/
def decStrGo : Nat → Nat → String
  | 0, n => digitStr n
  | fuel + 1, n => if n < 10 then digitStr n else decStrGo fuel (n / 10) ++ digitStr (n % 10)

/-- Decimal rendering of a natural number (Go `%d`). -/
def decStr (n : Nat) : String :=
  decStrGo n n

/-- Go time-layout field `01`/`02`/`15`: zero-padded to width 2. -/
def pad2 (n : Nat) : String :=
  if n < 10 then "0" ++ decStr n else decStr n

/-- Go time-layout field `2006`: zero-padded to width 4. -/
def pad4 (n : Nat) : String :=
  if n < 10 then "000" ++ decStr n
  else if n < 100 then "00" ++ decStr n
  else if n < 1000 then "0" ++ decStr n
  else decStr n

/-- The fields of a wall-clock time that the archive-rule formats use. -/
structure DateTime where
  year : Nat
  month : Nat
  day : Nat
  hour : Nat
  deriving DecidableEq

/-- Go `modifyTime.Format "2006010215"`. -/
def goFormatHour (t : DateTime) : String :=
  pad4 t.year ++ pad2 t.month ++ pad2 t.day ++ pad2 t.hour

/-- Go `modifyTime.Format "20060102"`. -/
def goFormatDay (t : DateTime) : String :=
  pad4 t.year ++ pad2 t.month ++ pad2 t.day

/-- Go `modifyTime.Format "200601"`. -/
def goFormatMonth (t : DateTime) : String :=
  pad4 t.year ++ pad2 t.month

/-- Go `modifyTime.Format "2006"`. -/
def goFormatYear (t : DateTime) : String :=
  pad4 t.year

/-- Embedding of `getArchivePrefix` (cos.go lines 196-218) with `mtime`
the modification time observed by the `os.Stat` in its body (the
`time.Now()` fallback for a failed stat is not modelled: the claims
concern files that exist). -/
def getArchivePrefix (rule : String) (mtime : DateTime) : String :=
  if rule = "hour" then goFormatHour mtime
  else if rule = "day" then goFormatDay mtime
  else if rule = "month" then goFormatMonth mtime
  else if rule = "year" then goFormatYear mtime
  else ""

/-- Embedding of `compress.GetCompressAlgorithmSuffix`
(pkg/compress/compress.go lines 82-91). -/
def GetCompressAlgorithmSuffix (algorithm : String) : String :=
  if algorithm = "zstd" then ".zst"
  else if algorithm = "lz4" then ".lz4"
  else ""

/-- Destination object key computed by `Handler.Execute` (cos.go lines
147-159): `dstPath := Rel(rootPath, filePath)`; if the archive-rule
time bucket is nonempty, `dstPath = filepath.Join(bucket, dstPath)`;
then the compression suffix is appended. -/
def cosDestKey (rule alg : String) (root file : GoPath) (mtime : DateTime) :
    Except String String :=
  match goRel root file with
  | Except.error e => Except.error e
  | Except.ok rel =>
    let pre := getArchivePrefix rule mtime
    let dst := if pre = "" then renderRel rel else renderRel (cleanRel (pre :: rel))
    Except.ok (dst ++ GetCompressAlgorithmSuffix alg)

/-- Spec-side definition of the time bucket, following the spec's
words: `hour=YYYYMMDDHH`, `day=YYYYMMDD`, `month=YYYYMM`, `year=YYYY`,
empty otherwise. -/
def specBucket (rule : String) (mtime : DateTime) : String :=
  if rule = "hour" then pad4 mtime.year ++ pad2 mtime.month ++ pad2 mtime.day ++ pad2 mtime.hour
  else if rule = "day" then pad4 mtime.year ++ pad2 mtime.month ++ pad2 mtime.day
  else if rule = "month" then pad4 mtime.year ++ pad2 mtime.month
  else if rule = "year" then pad4 mtime.year
  else ""

/-- Spec-side definition of the algorithm suffix: `.zst` for zstd,
`.lz4` for lz4, empty otherwise. -/
def specSuffix (alg : String) : String :=
  if alg = "zstd" then ".zst" else if alg = "lz4" then ".lz4" else ""

/-- Spec-side `join(bucket, rel)`: the relative path alone when the
bucket is empty, otherwise bucket and path separated by `/`. -/
def specJoin (bucket rel : String) : String :=
  if bucket = "" then rel else bucket ++ "/" ++ rel

theorem getArchivePrefix_eq_specBucket (rule : String) (t : DateTime) :
    getArchivePrefix rule t = specBucket rule t :=
  rfl

theorem decStrGo_length_pos (fuel n : Nat) : 1 ≤ (decStrGo fuel n).length := by
  cases fuel with
  | zero => simp [decStrGo, digitStr]
  | succ m =>
    unfold decStrGo
    split
    · simp [digitStr]
    · rw [String.length_append]
      simp [digitStr]

theorem decStr_length_ge2 (n : Nat) (h : 10 ≤ n) : 2 ≤ (decStr n).length := by
  unfold decStr
  rcases n with _ | m
  · omega
  · unfold decStrGo
    rw [if_neg (by omega), String.length_append]
    have := decStrGo_length_pos m ((m + 1) / 10)
    simp [digitStr]
    omega

theorem decStrGo_length_ge2 (fuel n : Nat) (h : 10 ≤ n) (hf : 1 ≤ fuel) :
    2 ≤ (decStrGo fuel n).length := by
  rcases fuel with _ | m
  · omega
  · unfold decStrGo
    rw [if_neg (by omega), String.length_append]
    have := decStrGo_length_pos m (n / 10)
    simp [digitStr]
    omega

theorem decStr_length_ge3 (n : Nat) (h : 100 ≤ n) : 3 ≤ (decStr n).length := by
  unfold decStr
  rcases n with _ | m
  · omega
  · unfold decStrGo
    rw [if_neg (by omega), String.length_append]
    have h10 : 10 ≤ (m + 1) / 10 := by omega
    have hf : 1 ≤ m := by omega
    have := decStrGo_length_ge2 m ((m + 1) / 10) h10 hf
    simp [digitStr]
    omega

theorem pad4_length_ge3 (n : Nat) : 3 ≤ (pad4 n).length := by
  have h000 : ("000" : String).length = 3 := rfl
  have h00 : ("00" : String).length = 2 := rfl
  have h0 : ("0" : String).length = 1 := rfl
  have hp : 1 ≤ (decStr n).length := decStrGo_length_pos n n
  unfold pad4
  split
  · rw [String.length_append, h000]
    omega
  · split
    · rw [String.length_append, h00]
      omega
    · split
      · rw [String.length_append, h0]
        have := decStr_length_ge2 n (by omega)
        omega
      · exact decStr_length_ge3 n (by omega)

theorem specBucket_length_ge3 (rule : String) (t : DateTime)
    (h : specBucket rule t ≠ "") : 3 ≤ (specBucket rule t).length := by
  unfold specBucket at *
  split_ifs with h1 h2 h3 h4
  · rw [String.length_append, String.length_append, String.length_append]
    have := pad4_length_ge3 t.year
    omega
  · rw [String.length_append, String.length_append]
    have := pad4_length_ge3 t.year
    omega
  · rw [String.length_append]
    have := pad4_length_ge3 t.year
    omega
  · exact pad4_length_ge3 t.year
  · rw [if_neg h1, if_neg h2, if_neg h3, if_neg h4] at h
    exact absurd rfl h

theorem specBucket_ne_dot (rule : String) (t : DateTime)
    (h : specBucket rule t ≠ "") :
    specBucket rule t ≠ "." ∧ specBucket rule t ≠ ".." := by
  have h3 := specBucket_length_ge3 rule t h
  constructor
  · intro hc
    rw [hc] at h3
    exact absurd h3 (by decide)
  · intro hc
    rw [hc] at h3
    exact absurd h3 (by decide)

theorem cleanRel_of_normal (comps : List String)
    (h : ∀ c ∈ comps, c ≠ "." ∧ c ≠ ".." ∧ c ≠ "") :
    cleanRel comps = comps := by
  suffices hgen : ∀ (acc : List String), comps.foldl cleanStack acc = comps.reverse ++ acc by
    unfold cleanRel
    rw [hgen []]
    simp
  induction comps with
  | nil => intro acc; simp
  | cons c cs ih =>
    intro acc
    have hc := h c (by simp)
    have hstep : cleanStack acc c = c :: acc := by
      unfold cleanStack
      rw [if_neg (by simp [hc.1, hc.2.2]), if_neg hc.2.1]
    simp only [List.foldl_cons, hstep]
    rw [ih (fun x hx => h x (by simp [hx])) (c :: acc)]
    simp

theorem renderRel_cons (c : String) (rest : List String) (h : rest ≠ []) :
    renderRel (c :: rest) = c ++ "/" ++ renderRel rest := by
  rcases rest with _ | ⟨a, tl⟩
  · exact absurd rfl h
  · rfl

/-- C4. For an upload task whose file lies strictly under the root
(Rel succeeds with a nonempty list of ordinary components), the
destination key computed by `Handler.Execute` is
`join(bucket(rule, mtime), rel(root, file)) ++ suffix(alg)` with the
bucket and suffix exactly as the spec states them. -/
theorem cosDestKey_spec (rule alg : String) (root file : GoPath) (mtime : DateTime)
    (rel : List String) (h1 : goRel root file = Except.ok rel) (h2 : rel ≠ [])
    (h3 : ∀ c ∈ rel, c ≠ "." ∧ c ≠ ".." ∧ c ≠ "") :
    cosDestKey rule alg root file mtime =
      Except.ok (specJoin (specBucket rule mtime) (renderRel rel) ++ specSuffix alg) := by
  unfold cosDestKey
  rw [h1]
  simp only
  rw [getArchivePrefix_eq_specBucket]
  have hsuf : GetCompressAlgorithmSuffix alg = specSuffix alg := rfl
  by_cases hb : specBucket rule mtime = ""
  · rw [hb]
    simp [specJoin, hsuf]
  · rw [if_neg hb]
    have hnd := specBucket_ne_dot rule mtime hb
    have hclean : cleanRel (specBucket rule mtime :: rel) = specBucket rule mtime :: rel := by
      apply cleanRel_of_normal
      intro c hc
      rcases List.mem_cons.mp hc with hceq | hcm
      · exact ⟨by rw [hceq]; exact hnd.1, by rw [hceq]; exact hnd.2, by rw [hceq]; exact hb⟩
      · exact h3 c hcm
    rw [hclean, renderRel_cons _ _ h2]
    simp [specJoin, hb, hsuf]

/-- Witness for `cosDestKey_spec`: end-to-end scenario 1 of the spec —
root `/var/log/app`, file `/var/log/app/a.log`, day rule, zstd. -/
theorem cosDestKey_spec_witness :
    cosDestKey "day" "zstd" (GoPath.mk true ["var", "log", "app"])
        (GoPath.mk true ["var", "log", "app", "a.log"]) (DateTime.mk 2024 1 15 10) =
      Except.ok "20240115/a.log.zst" := by
  have h := cosDestKey_spec "day" "zstd" (GoPath.mk true ["var", "log", "app"])
    (GoPath.mk true ["var", "log", "app", "a.log"]) (DateTime.mk 2024 1 15 10)
    ["a.log"] rfl (by decide) (by decide)
  rw [h]
  rfl

/-! ## Claim C8: relative-path rejection in Execute -/

/-- Spec-side notion of descendant: same absoluteness and the root's
components are a prefix of the file's. -/
def isDescendant (root file : GoPath) : Bool :=
  root.abs == file.abs && root.comps.isPrefixOf file.comps

theorem stripCommon_fst_subset : ∀ (a b : List String), ∀ x ∈ (stripCommon a b).1, x ∈ a := by
  intro a
  induction a with
  | nil => intro b x hx; simp [stripCommon] at hx
  | cons c cs ih =>
    intro b x hx
    rcases b with _ | ⟨d, ds⟩
    · simpa [stripCommon] using hx
    · unfold stripCommon at hx
      by_cases hcd : c = d
      · rw [if_pos hcd] at hx
        exact List.mem_cons_of_mem c (ih ds x hx)
      · rw [if_neg hcd] at hx
        exact hx

/-- C8 (amended). `filepath.Rel` never errors for two absolute cleaned
paths, so `Handler.Execute`'s step 2 does not fail for a file outside
the root: the computed key simply contains `..` segments. Execute's
relative-path computation can fail only when the two paths differ in
absoluteness (or the base carries a `..` component). -/
theorem cosDestKey_abs_no_fail (rule alg : String) (root file : GoPath) (t : DateTime)
    (h1 : root.abs = true) (h2 : file.abs = true) (h3 : ".." ∉ root.comps) :
    ∃ k, cosDestKey rule alg root file t = Except.ok k := by
  have hrel : ∃ r, goRel root file = Except.ok r := by
    unfold goRel
    rw [if_neg (by simp [h1, h2])]
    rw [if_neg ?hne]
    · exact ⟨_, rfl⟩
    case hne =>
      intro hc
      have hmem : ".." ∈ (stripCommon root.comps file.comps).1 := by
        rcases hh : (stripCommon root.comps file.comps).1 with _ | ⟨y, ys⟩
        · rw [hh] at hc
          simp at hc
        · rw [hh] at hc
          simp at hc
          simp [hh, hc]
      exact h3 (stripCommon_fst_subset root.comps file.comps ".." hmem)
  rcases hrel with ⟨r, hr⟩
  unfold cosDestKey
  rw [hr]
  exact ⟨_, rfl⟩

/-- Witness for `cosDestKey_abs_no_fail`, doubling as the demonstration
that a non-descendant does not make Execute fail. -/
theorem cosDestKey_abs_no_fail_witness :
    (GoPath.mk true ["a", "b"]).abs = true ∧
    ∃ k, cosDestKey "" "" (GoPath.mk true ["a", "b"]) (GoPath.mk true ["a", "c"])
        (DateTime.mk 2024 1 15 0) = Except.ok k :=
  ⟨rfl, cosDestKey_abs_no_fail "" "" (GoPath.mk true ["a", "b"]) (GoPath.mk true ["a", "c"])
    (DateTime.mk 2024 1 15 0) rfl rfl (by decide)⟩

/-- C8 (counterexample). `/a/c` is not a descendant of `/a/b`, yet the
relative-path step of `Execute` succeeds and produces the key `../c`
instead of failing. -/
theorem cos_nondescendant_not_rejected :
    isDescendant (GoPath.mk true ["a", "b"]) (GoPath.mk true ["a", "c"]) = false ∧
    cosDestKey "" "" (GoPath.mk true ["a", "b"]) (GoPath.mk true ["a", "c"])
        (DateTime.mk 2024 1 15 0) = Except.ok "../c" := by
  constructor
  · decide
  · rfl

/-! ## Claim C6: compression truncation (pkg/compress)

`zstdCompress` reads the source through a `TeeReader` in 4096-byte
chunks into a staging buffer; after each read it first checks the
buffer against `MaxWriterBuffSize` and then flushes the buffer into the
encoder whenever it has reached `maxChunkSize`. The embedding keeps the
buffer length and the remaining source size; reads return
`min 4096 remaining` bytes, and encoder writes are assumed to succeed
(I/O errors of the underlying writer are not modelled). -/

/-- Go `maxChunkSize = 8 << 20` (pkg/compress/compress.go). -/
def maxChunkSize : Nat := 8 * 1024 * 1024

/-- Go `maxBufferSize = 16 << 20`, the default `MaxWriterBuffSize`. -/
def maxBufferSize : Nat := 16 * 1024 * 1024

/-- The error outcomes of the compress package that the claims use. -/
inductive CompressErr
  | unexpectedEOF
  | unsupportAlgorithm
  deriving DecidableEq

/-- Embedding of the read/stage/flush loop of `zstdCompress`. `cap` is
`option.MaxWriterBuffSize()` (a Go `int`), `bufLen` the current tee
buffer length, `remaining` the unread source bytes. -/
def zstdLoop (cap : Int) (bufLen remaining : Nat) : Except CompressErr Unit :=
  if remaining = 0 then
    Except.ok ()
  else if 0 < cap ∧ cap < (bufLen + min 4096 remaining : Nat) then
    Except.error CompressErr.unexpectedEOF
  else if maxChunkSize ≤ bufLen + min 4096 remaining then
    zstdLoop cap 0 (remaining - min 4096 remaining)
  else
    zstdLoop cap (bufLen + min 4096 remaining) (remaining - min 4096 remaining)
  termination_by remaining
  decreasing_by
  · omega
  · omega

/-- Model of `defaultCompressOption`. -/
structure CompressOptionB where
  algorithm : String
  maxWriterBuffSize : Int
  deriving DecidableEq

/-- Embedding of `NewDefaultCompressOption`: the writer-buffer cap
defaults to `maxBufferSize`. -/
def NewDefaultCompressOption (algorithm : String) : CompressOptionB :=
  { algorithm := algorithm, maxWriterBuffSize := (maxBufferSize : Int) }

/-- Embedding of `CompressFile` for a source of `size` bytes: only the
zstd algorithm is implemented, everything else is
`ErrUnsupportAlgorithm`. -/
def CompressFileModel (option : CompressOptionB) (size : Nat) : Except CompressErr Unit :=
  if option.algorithm = "zstd" then zstdLoop option.maxWriterBuffSize 0 size
  else Except.error CompressErr.unsupportAlgorithm

/-- Observable outcome of the compression phase of `Handler.Execute`. -/
structure CosCompressPhaseRes where
  success : Bool
  truncateIncs : Nat
  deriving DecidableEq

/-- Classification of a `CompressFile` result the way `Handler.Execute`
(cos.go lines 171-193) treats it: `ErrUnexpectedEOF` is non-fatal (the
truncate counter is incremented and the partial buffer is uploaded);
any other compression error fails the call with `codeCompressFailed`;
the remote `Put` is assumed to succeed. -/
def cosCompressOutcome : Except CompressErr Unit → CosCompressPhaseRes
  | Except.error CompressErr.unexpectedEOF => { success := true, truncateIncs := 1 }
  | Except.error _ => { success := false, truncateIncs := 0 }
  | Except.ok _ => { success := true, truncateIncs := 0 }

/-- The compression phase of `Handler.Execute` for algorithm `alg` on a
file of `size` bytes, using the default compress option as the source
does. -/
def cosExecuteCompressPhase (alg : String) (size : Nat) : CosCompressPhaseRes :=
  cosCompressOutcome (CompressFileModel (NewDefaultCompressOption alg) size)

/-- With the default 16 MiB cap the tee buffer is always flushed at the
8 MiB chunk threshold before it can exceed the cap, so the loop never
reports truncation. -/
theorem zstdLoop_default_ok :
    ∀ (remaining bufLen : Nat), bufLen < maxChunkSize →
      zstdLoop (maxBufferSize : Int) bufLen remaining = Except.ok () := by
  intro remaining
  induction remaining using Nat.strong_induction_on with
  | _ r ih =>
    intro bufLen hb
    unfold zstdLoop
    rcases Nat.eq_zero_or_pos r with h0 | hpos
    · rw [if_pos h0]
    · rw [if_neg (by omega)]
      rw [if_neg ?hcap]
      case hcap =>
        intro hc
        have hlt := hc.2
        have hle : bufLen + min 4096 r < maxBufferSize := by
          unfold maxChunkSize at hb
          unfold maxBufferSize
          omega
        have : ((bufLen + min 4096 r : Nat) : Int) < (maxBufferSize : Int) := by
          exact_mod_cast hle
        omega
      by_cases hch : maxChunkSize ≤ bufLen + min 4096 r
      · rw [if_pos hch]
        exact ih (r - min 4096 r) (by omega) 0 (by unfold maxChunkSize; omega)
      · rw [if_neg hch]
        exact ih (r - min 4096 r) (by omega) (bufLen + min 4096 r) (by omega)

/-- C6 (counterexample). Compressing a 32 MiB file with the default
option does not yield the truncation outcome: `CompressFile` returns
success and the COS compression phase increments `OutputTruncateTotal`
by 0, not 1 (the package's own test expects files up to 1 GiB to
compress without error). -/
theorem zstd_32MiB_no_truncation :
    CompressFileModel (NewDefaultCompressOption "zstd") (32 * 1024 * 1024) = Except.ok () ∧
    cosExecuteCompressPhase "zstd" (32 * 1024 * 1024) =
      { success := true, truncateIncs := 0 } := by
  have h : CompressFileModel (NewDefaultCompressOption "zstd") (32 * 1024 * 1024) =
      Except.ok () := by
    unfold CompressFileModel NewDefaultCompressOption
    rw [if_pos rfl]
    exact zstdLoop_default_ok (32 * 1024 * 1024) 0 (by unfold maxChunkSize; omega)
  refine ⟨h, ?_⟩
  unfold cosExecuteCompressPhase
  rw [h]
  rfl

/-- C6 (amended). Truncation (`ErrUnexpectedEOF`) is returned when the
tee buffer exceeds a positive `MaxWriterBufSize` before the source is
exhausted, which can only happen when the cap is below the 8 MiB chunk
threshold (e.g. a 4096-byte cap on an 8192-byte source); with the
default 16 MiB cap the buffer is flushed every 8 MiB and the cap is
never exceeded, so the zstd path succeeds for every input size — in
particular a 32 MiB file — and `Execute` succeeds with
`OutputTruncateTotal` not incremented. -/
theorem zstdCompress_cap_policy :
    (∀ size : Nat, CompressFileModel (NewDefaultCompressOption "zstd") size = Except.ok ()) ∧
    (∀ size : Nat, cosExecuteCompressPhase "zstd" size =
      { success := true, truncateIncs := 0 }) ∧
    zstdLoop 4096 0 8192 = Except.error CompressErr.unexpectedEOF := by
  have hall : ∀ size : Nat, CompressFileModel (NewDefaultCompressOption "zstd") size =
      Except.ok () := by
    intro size
    unfold CompressFileModel NewDefaultCompressOption
    rw [if_pos rfl]
    exact zstdLoop_default_ok size 0 (by unfold maxChunkSize; omega)
  refine ⟨hall, ?_, ?_⟩
  · intro size
    unfold cosExecuteCompressPhase
    rw [hall size]
    rfl
  · have h1 : zstdLoop 4096 0 8192 =
        zstdLoop 4096 (0 + min 4096 8192) (8192 - min 4096 8192) := by
      conv_lhs => unfold zstdLoop
      rw [if_neg (show ¬ (8192 = 0) by omega)]
      rw [if_neg (show ¬ ((0 : Int) < 4096 ∧ (4096 : Int) <
        ((0 + min 4096 8192 : Nat) : Int)) by omega)]
      rw [if_neg (show ¬ (maxChunkSize ≤ 0 + min 4096 8192) by unfold maxChunkSize; omega)]
    have h2 : (0 + min 4096 8192 : Nat) = 4096 := by omega
    have h3 : (8192 - min 4096 8192 : Nat) = 4096 := by omega
    rw [h1, h2, h3]
    unfold zstdLoop
    rw [if_neg (show ¬ (4096 = 0) by omega)]
    rw [if_pos (show (0 : Int) < 4096 ∧ (4096 : Int) <
      ((4096 + min 4096 4096 : Nat) : Int) by omega)]

/-! ## Claim C5: archive startup rollback (logarchive `run`)

An archive is modelled by its name and the behaviours of its `Start`
and `Stop` methods. The start loop of `run` appends each successfully
started archive to the `started` slice; on the first `Start` failure it
iterates `started` (a forward range over the slice), calls `Stop` on
each, folds failing stop errors onto the start error, and returns
`archive start: <err>`. After the loop, when a metric collector is
configured, `err = newCfg.Metric.Start()` overwrites whatever error the
loop produced. The Go map iteration order over `newCfg.archives` is
nondeterministic; the list models the order that iteration happened to
produce. -/

/-- An archive together with the outcomes of its `Start` and `Stop`. -/
structure ArchiveB where
  name : String
  startErr : Option String
  stopErr : Option String
  deriving DecidableEq

/-- The error-folding of the rollback loop: starting from the start
error, each failing `Stop` of a previously started archive appends
`; stop archive: <err2>`. -/
def aggregateStopErrs (e : String) (started : List ArchiveB) : String :=
  started.foldl
    (fun acc a =>
      match a.stopErr with
      | some e2 => acc ++ "; stop archive: " ++ e2
      | none => acc) e

/-- The start-archives loop of `run` (part_009 lines 81-96). Returns
the names of the archives `Stop` was invoked on, in invocation order,
and the error of the loop (`none` when every `Start` succeeded). -/
def startArchives (started : List ArchiveB) : List ArchiveB → List String × Option String
  | [] => ([], none)
  | a :: rest =>
    match a.startErr with
    | none => startArchives (started ++ [a]) rest
    | some e =>
      (started.map ArchiveB.name,
        some ("archive start: " ++ aggregateStopErrs e started))

/-- The tail of `run` (part_009 lines 81-102): the start loop followed
by `if newCfg.Metric != nil { err = newCfg.Metric.Start() }`, which
overwrites the loop's error. `metric = none` models no metric section;
`metric = some mErr` a configured collector whose `Start` returns
`mErr`. -/
def runModel (metric : Option (Option String)) (archives : List ArchiveB) :
    List String × Option String :=
  let r := startArchives [] archives
  match metric with
  | none => r
  | some mErr => (r.1, mErr)

theorem startArchives_append (pre : List ArchiveB) :
    ∀ (acc : List ArchiveB) (a : ArchiveB) (post : List ArchiveB) (e : String),
      (∀ b ∈ pre, b.startErr = none) → a.startErr = some e →
      startArchives acc (pre ++ a :: post) =
        ((acc ++ pre).map ArchiveB.name,
          some ("archive start: " ++ aggregateStopErrs e (acc ++ pre))) := by
  induction pre with
  | nil =>
    intro acc a post e _ ha
    simp only [List.nil_append]
    unfold startArchives
    rw [ha]
    simp
  | cons b bs ih =>
    intro acc a post e hpre ha
    have hb : b.startErr = none := hpre b (by simp)
    simp only [List.cons_append]
    unfold startArchives
    rw [hb]
    rw [ih (acc ++ [b]) a post e (fun x hx => hpre x (by simp [hx])) ha]
    simp

/-- C5 (amended). If `Start` fails on an archive, every
previously-started archive is stopped — in the order they were started,
not in reverse — and the start error folded with the failing stop
errors is the loop's result; when no metric collector is configured
this aggregated error is what `run` returns, but when one is configured
`metric.Start()` is still invoked and its result replaces the
aggregated error. -/
theorem run_start_rollback (pre post : List ArchiveB) (a : ArchiveB) (e : String)
    (hpre : ∀ b ∈ pre, b.startErr = none) (ha : a.startErr = some e) :
    (runModel none (pre ++ a :: post) =
      (pre.map ArchiveB.name,
        some ("archive start: " ++ aggregateStopErrs e pre))) ∧
    (∀ mErr, runModel (some mErr) (pre ++ a :: post) =
      (pre.map ArchiveB.name, mErr)) := by
  have h := startArchives_append pre [] a post e hpre ha
  simp only [List.nil_append] at h
  constructor
  · unfold runModel
    rw [h]
  · intro mErr
    unfold runModel
    rw [h]

/-- Witness for `run_start_rollback`: two healthy archives followed by
one whose `Start` fails. -/
theorem run_start_rollback_witness :
    runModel none
        [ArchiveB.mk "a1" none none, ArchiveB.mk "a2" none none,
         ArchiveB.mk "a3" (some "boom") none] =
      (["a1", "a2"], some ("archive start: " ++
        aggregateStopErrs "boom" [ArchiveB.mk "a1" none none, ArchiveB.mk "a2" none none])) :=
  (run_start_rollback [ArchiveB.mk "a1" none none, ArchiveB.mk "a2" none none] []
    (ArchiveB.mk "a3" (some "boom") none) "boom" (by decide) rfl).1

/-- C5 (counterexample). With archives started in order `a1, a2` and
`a3` failing to start while a metric collector is configured, the stops
are issued in the order `a1, a2` — the start order, not the claimed
reverse order — and `run` returns `nil` (the metric collector's `Start`
result), not the aggregated start-plus-stop error. -/
theorem run_rollback_not_reverse_and_error_lost :
    runModel (some none)
        [ArchiveB.mk "a1" none none, ArchiveB.mk "a2" none none,
         ArchiveB.mk "a3" (some "boom") none] =
      (["a1", "a2"], none) ∧
    (["a1", "a2"] : List String) ≠ ["a2", "a1"] := by
  constructor
  · rfl
  · decide

/-! ## Claim C7: daemon-level Stop (logarchive `Stop`)

The daemon configuration is modelled by whether its logging section (and
hence `cfg.Logging.logger`) is present, the `Stop` behaviour of the
metric collector when configured, and the `Stop` behaviours of the
archives. `logarchiveCtx` is `some cfg` while running and `none` after
a successful `Stop` resets it to the zero `Context{}`. -/

/-- Daemon configuration state reachable through `logarchiveCtx.cfg`. -/
structure CfgB where
  hasLogging : Bool
  metricStop : Option (Option String)
  archiveStops : List (Option String)
  deriving DecidableEq

/-- `Context.Logger` (part_008 lines 313-316) evaluates
`ctx.cfg.Logging.logger`: with a nil `cfg` (the zero `Context{}`) or a
nil `Logging` the field access is a nil-pointer dereference, modelled
as a Lean-level error standing for the Go panic. -/
def ctxLoggerModel (cfg? : Option CfgB) : Except String Unit :=
  match cfg? with
  | none => Except.error "nil pointer dereference in Context.Logger"
  | some cfg =>
    if cfg.hasLogging then Except.ok ()
    else Except.error "nil pointer dereference in Context.Logger"

/-- `shutdown` (part_009 lines 118-140): return nil for a nil `cfg`;
otherwise stop the metric collector and every archive, folding failures
into one error. -/
def shutdownModel (cfg? : Option CfgB) : Option String :=
  match cfg? with
  | none => none
  | some cfg =>
    let e1 : Option String :=
      match cfg.metricStop with
      | some (some e) => some ("; stop metric: " ++ e)
      | _ => none
    cfg.archiveStops.foldl
      (fun acc r =>
        match r with
        | some e => some ((acc.getD "") ++ "; stop archive: " ++ e)
        | none => acc) e1

/-- `Stop` (part_009 lines 106-116): first log through
`logarchiveCtx.Logger()` — a nil-pointer panic when the context is the
zero value — then run `shutdown`; on a shutdown error return it leaving
`logarchiveCtx` unchanged, on success reset `logarchiveCtx` to
`Context{}` and return nil. -/
def stopModel (st : Option CfgB) : Except String (Option String × Option CfgB) :=
  match ctxLoggerModel st with
  | Except.error e => Except.error e
  | Except.ok _ =>
    match shutdownModel st with
    | some e => Except.ok (some e, st)
    | none => Except.ok (none, none)

/-- C7. A first `Stop` on a healthy daemon succeeds, returns nil and
resets the global context to the zero `Context`; the second `Stop` then
dereferences the nil `cfg` inside `Context.Logger` and panics instead
of being the no-op the claim (and `shutdown`'s own nil-`cfg` guard)
intends. -/
theorem stop_second_call_panics :
    stopModel (some (CfgB.mk true none [])) = Except.ok (none, none) ∧
    stopModel none = Except.error "nil pointer dereference in Context.Logger" :=
  ⟨rfl, rfl⟩

/-! ## Claim C9: LoadModuleByID contract (part_008)

A registered module instance is modelled by which optional interfaces
it implements (`Provisioner`, `Validator`, `CleanerUpper`) and the
outcomes of those methods. The registry lookup is modelled by
`Option (Option ModVal)`: `none` for an unknown id, `some none` for an
entry without constructor, `some (some v)` for a working entry. -/

/-- Behaviour of one constructed module instance. -/
structure ModVal where
  isProvisioner : Bool
  provisionErr : Option String
  isValidator : Bool
  validateErr : Option String
  isCleanerUpper : Bool
  cleanupErr : Option String
  deriving DecidableEq

/-- The `Cleanup` call made on a provision/validate failure: invoked
only when the instance is a `CleanerUpper`, and a failing cleanup is
folded onto the original error with `; additionally, cleanup:`. Returns
whether `Cleanup` ran and the combined error. -/
def runCleanup (v : ModVal) (e : String) : Bool × String :=
  if v.isCleanerUpper = true then
    match v.cleanupErr with
    | some e2 => (true, e ++ "; additionally, cleanup: " ++ e2)
    | none => (true, e)
  else (false, e)

/-- Observable outcome of `LoadModuleByID`: the returned error (or
success), whether `Cleanup` was invoked, and whether the instance was
recorded in `ctx.moduleInstances` for later teardown. -/
structure LoadRes where
  result : Except String Unit
  cleanupCalled : Bool
  recorded : Bool

/-- The `Validate` step of `LoadModuleByID` (part_008 lines 194-208). -/
def validatePhase (v : ModVal) : LoadRes :=
  if v.isValidator = true then
    match v.validateErr with
    | some e =>
      { result := Except.error ("invalid configuration: " ++ (runCleanup v e).2)
        cleanupCalled := (runCleanup v e).1
        recorded := false }
    | none => { result := Except.ok (), cleanupCalled := false, recorded := true }
  else { result := Except.ok (), cleanupCalled := false, recorded := true }

/-- The `Provision` step of `LoadModuleByID` (part_008 lines 181-192),
falling through to `Validate` on success. -/
def provisionPhase (v : ModVal) : LoadRes :=
  if v.isProvisioner = true then
    match v.provisionErr with
    | some e =>
      { result := Except.error ("provision: " ++ (runCleanup v e).2)
        cleanupCalled := (runCleanup v e).1
        recorded := false }
    | none => validatePhase v
  else validatePhase v

/-- Embedding of `Context.LoadModuleByID` (part_008 lines 151-209):
registry lookup, constructor check, deserialization of a non-empty raw
config, then `Provision`, then `Validate`; the instance is recorded
only when everything succeeded. -/
def loadModuleByID (registryHit : Option (Option ModVal)) (rawNonempty : Bool)
    (decodeErr : Option String) : LoadRes :=
  match registryHit with
  | none => { result := Except.error "unknown module", cleanupCalled := false, recorded := false }
  | some none =>
    { result := Except.error "module has no constructor", cleanupCalled := false, recorded := false }
  | some (some v) =>
    if rawNonempty = true then
      match decodeErr with
      | some e =>
        { result := Except.error ("decoding module config: " ++ e)
          cleanupCalled := false
          recorded := false }
      | none => provisionPhase v
    else provisionPhase v

theorem runCleanup_fst (v : ModVal) (e : String) :
    (runCleanup v e).1 = v.isCleanerUpper := by
  unfold runCleanup
  by_cases hc : v.isCleanerUpper = true
  · rw [if_pos hc]
    cases v.cleanupErr <;> simp [hc]
  · rw [if_neg hc]
    simp at hc
    simp [hc]

theorem loadModuleByID_decoded (v : ModVal) (rawNonempty : Bool) :
    loadModuleByID (some (some v)) rawNonempty none = provisionPhase v := by
  unfold loadModuleByID
  cases rawNonempty <;> simp

/-- C9. For a registered id whose raw config decodes, `LoadModuleByID`
runs `Provision` then `Validate`; if either fails, `Cleanup` is invoked
exactly when the instance has one, the returned error is the original
failure combined with any cleanup error, and the instance is recorded
for later teardown iff both steps succeed (equivalently, iff the call
returns success). -/
theorem loadModuleByID_contract (v : ModVal) (rawNonempty : Bool) :
    (∀ e, v.isProvisioner = true → v.provisionErr = some e →
      loadModuleByID (some (some v)) rawNonempty none =
        { result := Except.error ("provision: " ++ (runCleanup v e).2)
          cleanupCalled := v.isCleanerUpper
          recorded := false }) ∧
    (∀ e, (v.isProvisioner = true → v.provisionErr = none) → v.isValidator = true →
      v.validateErr = some e →
      loadModuleByID (some (some v)) rawNonempty none =
        { result := Except.error ("invalid configuration: " ++ (runCleanup v e).2)
          cleanupCalled := v.isCleanerUpper
          recorded := false }) ∧
    ((loadModuleByID (some (some v)) rawNonempty none).recorded = true ↔
      ((v.isProvisioner = true → v.provisionErr = none) ∧
       (v.isValidator = true → v.validateErr = none))) ∧
    ((loadModuleByID (some (some v)) rawNonempty none).recorded = true ↔
      (loadModuleByID (some (some v)) rawNonempty none).result = Except.ok ()) := by
  rw [loadModuleByID_decoded]
  refine ⟨?_, ?_, ?_, ?_⟩
  · intro e hp hpe
    unfold provisionPhase
    rw [if_pos hp, hpe]
    simp [runCleanup_fst]
  · intro e hpn hv hve
    unfold provisionPhase
    by_cases hp : v.isProvisioner = true
    · rw [if_pos hp, hpn hp]
      unfold validatePhase
      rw [if_pos hv, hve]
      simp [runCleanup_fst]
    · rw [if_neg hp]
      unfold validatePhase
      rw [if_pos hv, hve]
      simp [runCleanup_fst]
  · rcases hp : v.isProvisioner with _ | _ <;>
      rcases hpe : v.provisionErr with _ | e1 <;>
      rcases hv : v.isValidator with _ | _ <;>
      rcases hve : v.validateErr with _ | e2 <;>
      simp [provisionPhase, validatePhase, hp, hpe, hv, hve]
  · rcases hp : v.isProvisioner with _ | _ <;>
      rcases hpe : v.provisionErr with _ | e1 <;>
      rcases hv : v.isValidator with _ | _ <;>
      rcases hve : v.validateErr with _ | e2 <;>
      simp [provisionPhase, validatePhase, hp, hpe, hv, hve]

/-- Witness for `loadModuleByID_contract`: a provisioner whose
`Provision` fails and whose `Cleanup` also fails; the combined error is
returned, `Cleanup` ran, nothing is recorded. -/
theorem loadModuleByID_contract_witness :
    loadModuleByID (some (some (ModVal.mk true (some "pe") false none true (some "ce"))))
        true none =
      { result := Except.error "provision: pe; additionally, cleanup: ce"
        cleanupCalled := true
        recorded := false } := by
  have h := (loadModuleByID_contract
    (ModVal.mk true (some "pe") false none true (some "ce")) true).1 "pe" rfl rfl
  rw [h]
  rfl

/-! ## Claim C10: the cache-key pool bug (cache.go)

`sync.Pool` is modelled as a stack of dynamically-typed objects; `Get`
pops the top or invokes the pool's `New` on empty, `Put` pushes. The
notify pool's `New` constructs a `notifyInfo`, so the intended invariant
is that every object in `notifyPool` is a `*notifyInfo`. -/

/-- The two Go struct types that end up in the pools. -/
structure FileCacheKeyB where
  watchPath : String
  filePath : String
  deriving DecidableEq

/-- A dynamically-typed pool object (`any` in Go). -/
inductive PoolObj
  | notifyObj
  | cacheKeyObj (k : FileCacheKeyB)
  deriving DecidableEq

/-- `notifyPool.Get()` (filearchive.go line 555): pop the pool, or run
`New` — which allocates a fresh `notifyInfo` — when it is empty. -/
def notifyPoolGet (pool : List PoolObj) : PoolObj × List PoolObj :=
  match pool with
  | [] => (PoolObj.notifyObj, [])
  | x :: rest => (x, rest)

/-- Whether the type assertion `notifyPool.Get().(*notifyInfo)` in
`newNotifyInfo` (filearchive.go lines 554-562) holds for the object the
pool hands out. -/
def newNotifyInfoAssertHolds (pool : List PoolObj) : Bool :=
  match (notifyPoolGet pool).1 with
  | PoolObj.notifyObj => true
  | PoolObj.cacheKeyObj _ => false

/-- Embedding of `releaseCacheKey` (cache.go lines 40-48): the key's
fields are cleared and the object is `Put` into `notifyPool` — not
`cacheKeyPool`. Takes and returns the pair
(notifyPool, cacheKeyPool). -/
def releaseCacheKey (k : FileCacheKeyB) (notifyPool cacheKeyPool : List PoolObj) :
    List PoolObj × List PoolObj :=
  (PoolObj.cacheKeyObj { k with watchPath := "", filePath := "" } :: notifyPool, cacheKeyPool)

/-- C10. `releaseCacheKey` clears the key's fields and returns the
object to `notifyPool` while leaving `cacheKeyPool` untouched; in the
resulting (reachable) pool state the very next `newNotifyInfo` receives
a `*fileCacheKey`, so its type assertion `.(*notifyInfo)` does not hold
in every reachable pool state. -/
theorem releaseCacheKey_wrong_pool (k : FileCacheKeyB) (np ckp : List PoolObj) :
    releaseCacheKey k np ckp =
      (PoolObj.cacheKeyObj (FileCacheKeyB.mk "" "") :: np, ckp) ∧
    newNotifyInfoAssertHolds (releaseCacheKey k np ckp).1 = false :=
  ⟨rfl, rfl⟩

end Atdtool
